import Mathlib

/-!
Shallow embedding of the YOWOF training/evaluation core:
the uniform-matcher Criterion (models/detector/yowof/loss.py),
checkpoint loading (utils/misc.py), the UCF/JHMDB dataset item loader
(packages/dataset/ucf_jhmdb.py) and the AVA evaluator aggregation
(packages/evaluator/ava_evaluator.py).

Real-valued tensor entries are embedded as rationals; variable-length
tensors as lists.  External collaborators that only feed values into the
embedded code (pairwise IoU, GIoU, the elementwise sigmoid focal loss,
the uniform matcher) are abstracted as function parameters, since none
of the verified properties depends on their values, only on how the
embedded code aggregates them.
-/

namespace YOWOF

/-- Corner-format box of four rational coordinates `x1, y1, x2, y2`.
For a center-size (cxcywh) box the same four fields are read as
`cx, cy, w, h` in order. -/
structure Box where
  x1 : ℚ
  y1 : ℚ
  x2 : ℚ
  y2 : ℚ
deriving Repr, DecidableEq, Inhabited

/-! ### AVA evaluator: streaming new-video signal (ava_evaluator.py 208-261) -/

/-- One iteration of the streaming loop of `evaluate_frame_map_stream`
(ava_evaluator.py 216-231): two sequential `if`s — the first fires on
iteration 0, the second when the sample's video id differs from
`prev_video_id`; each sets `model.initialization` and updates
`prev_video_id`.  Returns whether the signal was set this iteration and
the updated `prev_video_id`. -/
def streamInitStep (prev : String) (i : Nat) (vid : String) : Bool × String :=
  let fire0 := decide (i = 0)
  let prev0 := if i = 0 then vid else prev
  let fire1 := decide (vid ≠ prev0)
  let prev1 := if vid ≠ prev0 then vid else prev0
  (fire0 || fire1, prev1)

/-- Remaining iterations of the streaming loop, carrying `prev_video_id`
and the iteration counter. -/
def streamInitFlagsAux (prev : String) (i : Nat) : List String → List Bool
  | [] => []
  | v :: vs =>
    let r := streamInitStep prev i v
    r.1 :: streamInitFlagsAux r.2 (i + 1) vs

/-- For each sample of a streaming evaluation pass (given the samples'
video identifiers in dataset order), whether `evaluate_frame_map_stream`
sets `model.initialization` on that iteration.  `prev_video_id` starts
as the empty string (ava_evaluator.py 216). -/
def streamInitFlags (vids : List String) : List Bool :=
  streamInitFlagsAux "" 0 vids

/-! ### AVA evaluator: detection aggregation (ava_evaluator.py 154-206) -/

/-- A record of the accumulation buffer `self.all_preds`:
`[[x1, y1, x2, y2], cls_out, [video_idx, sec]]` with the tag already
rounded to integers as in `get_ava_eval_data` (lines 167-168). -/
structure PredRecord where
  box : Box
  scores : List ℚ
  videoIdx : Nat
  sec : Nat
deriving Repr, DecidableEq, Inhabited

/-- Python `"%04d" % n` for a nonnegative integer: left-pad the decimal
digits with zeros to width four. -/
def pad4 (n : Nat) : String :=
  let s := toString n
  String.mk (List.replicate (4 - s.length) '0') ++ s

/-- The key `video + ',' + "%04d" % sec` built at ava_evaluator.py
173-174, resolving the video index through `video_idx_to_name`. -/
def recordKey (vnames : List String) (r : PredRecord) : String :=
  vnames.getD r.videoIdx "" ++ "," ++ pad4 r.sec

/-- The box reordering `[box[1], box[0], box[3], box[2]]` of
ava_evaluator.py line 175: corner box to `[y1, x1, y2, x2]`. -/
def yxyxBox (b : Box) : List ℚ :=
  [b.y1, b.x1, b.y2, b.x2]

/-- The three keyed output tables of `get_ava_eval_data`
(`out_boxes`, `out_labels`, `out_scores`), each mapping a
"video,second" key to the list accumulated under it. -/
structure AvaEvalData where
  outBoxes : String → List (List ℚ)
  outLabels : String → List Nat
  outScores : String → List ℚ

/-- The empty `defaultdict(list)` state of the three tables. -/
def emptyEvalData : AvaEvalData :=
  ⟨fun _ => [], fun _ => [], fun _ => []⟩

/-- Append one value to the list stored under key `k`. -/
def appendAt {α : Type} (f : String → List α) (k : String) (v : α) : String → List α :=
  fun s => if s = k then f s ++ [v] else f s

/-- One step of the inner loop of `get_ava_eval_data`
(ava_evaluator.py 177-182): for an enumerated `(cls_idx, score)` pair
whose 1-based id is in the class whitelist, append the score, the label
`cls_idx + 1` and the reordered box under the record's key; other class
indices leave the tables untouched. -/
def addEntry (wl : List Nat) (key : String) (box : List ℚ)
    (d : AvaEvalData) (cs : Nat × ℚ) : AvaEvalData :=
  if cs.1 + 1 ∈ wl then
    { outBoxes := appendAt d.outBoxes key box
      outLabels := appendAt d.outLabels key (cs.1 + 1)
      outScores := appendAt d.outScores key cs.2 }
  else d

/-- Processing of one accumulated record by `get_ava_eval_data`
(ava_evaluator.py 164-182): fold the inner loop over the enumerated
score vector. -/
def addRecord (wl : List Nat) (vnames : List String) (d : AvaEvalData)
    (r : PredRecord) : AvaEvalData :=
  r.scores.enum.foldl (addEntry wl (recordKey vnames r) (yxyxBox r.box)) d

/-- `get_ava_eval_data` (ava_evaluator.py 157-184): fold `addRecord`
over the accumulation buffer. -/
def getAvaEvalData (wl : List Nat) (vnames : List String)
    (preds : List PredRecord) : AvaEvalData :=
  preds.foldl (addRecord wl vnames) emptyEvalData

/-- `update_stats` (ava_evaluator.py 154-155): extend the accumulation
buffer with the new records. -/
def updateStats (allPreds newPreds : List PredRecord) : List PredRecord :=
  allPreds ++ newPreds

/-- Accumulation performed by the streaming loop of
`evaluate_frame_map_stream` (ava_evaluator.py 218-249): one
`update_stats` call per sample, with that sample's detection records. -/
def streamAccumulate (perSample : List (List PredRecord)) : List PredRecord :=
  perSample.foldl updateStats []

/-- Accumulation performed by the batched loop of `evaluate_frame_map`
(ava_evaluator.py 270-295): one `update_stats` call per mini-batch;
each batch's `preds_list` concatenates its samples' records in order. -/
def batchAccumulate (batches : List (List (List PredRecord))) : List PredRecord :=
  batches.foldl (fun acc batch => updateStats acc batch.flatten) []

/-- `calculate_mAP` (ava_evaluator.py 186-206) as a function of the
accumulation buffer: the returned scalar is the external
`run_evaluation` applied to the aggregated detection table (the ground
truth, exclusion set and categories are fixed evaluator state absorbed
into `runEval`). -/
def calculateMAP (runEval : AvaEvalData → ℚ) (wl : List Nat)
    (vnames : List String) (allPreds : List PredRecord) : ℚ :=
  runEval (getAvaEvalData wl vnames allPreds)

/-! ### Checkpoint loading (utils/misc.py 181-205) -/

/-- A tensor shape. -/
abbrev Shape := List Nat

/-- A state dict reduced to its shape information: ordered
(parameter name, tensor shape) pairs. -/
abbrev StateDict := List (String × Shape)

/-- Shape of the parameter named `k`, if present. -/
def lookupShape (sd : StateDict) (k : String) : Option Shape :=
  (sd.find? (fun kv => kv.1 = k)).map (fun kv => kv.2)

/-- The checking loop of `load_weight` (misc.py 192-200): iterate the
checkpoint keys, popping every key the model lacks and every key whose
checkpoint shape differs from the model shape.  A key survives iff the
model has it with the same shape. -/
def filterCheckpoint (modelSd ckpt : StateDict) : StateDict :=
  ckpt.filter (fun kv =>
    match lookupShape modelSd kv.1 with
    | some s => decide (s = kv.2)
    | none => false)

/-- Model of the external `torch.nn.Module.load_state_dict` called with
its default `strict=True` (misc.py line 202 passes no `strict`
argument): per the torch contract the keys of the given state dict must
exactly match the model's keys, and a missing or unexpected key raises
a `RuntimeError`; on success the model is returned. -/
def loadStateDict (modelSd sd : StateDict) : Except String StateDict :=
  if modelSd.all (fun kv => (lookupShape sd kv.1).isSome)
      && sd.all (fun kv => (lookupShape modelSd kv.1).isSome) then
    Except.ok modelSd
  else
    Except.error "RuntimeError: state_dict key mismatch"

/-- `load_weight` (misc.py 181-205) for a present checkpoint: pop
incompatible checkpoint entries, then hand the filtered state dict to
the strict `load_state_dict`. -/
def load_weight (modelSd ckpt : StateDict) : Except String StateDict :=
  loadStateDict modelSd (filterCheckpoint modelSd ckpt)

/-! ### UCF/JHMDB dataset item loading (packages/dataset/ucf_jhmdb.py) -/

/-- One on-disk annotation row `[label, x1, y1, x2, y2]`
(ucf_jhmdb.py line 117).  The label column holds an integer; `.long()`
truncation of its float representation recovers exactly this integer. -/
structure DiskRow where
  lbl : ℤ
  x1 : ℚ
  y1 : ℚ
  x2 : ℚ
  y2 : ℚ
deriving Repr, DecidableEq, Inhabited

/-- One reformatted target row `[x1, y1, x2, y2, label]`
(ucf_jhmdb.py 117-120). -/
structure TargetRow where
  box : Box
  lbl : ℤ
deriving Repr, DecidableEq, Inhabited

/-- The column permutation of ucf_jhmdb.py 117-120:
`[label, x1, y1, x2, y2]` becomes `[x1, y1, x2, y2, label]`. -/
def reorderRow (r : DiskRow) : TargetRow :=
  ⟨⟨r.x1, r.y1, r.x2, r.y2⟩, r.lbl⟩

/-- Annotation loading step of `pull_item` (ucf_jhmdb.py 111-120).  A
label file of nonzero size parses to its rows, which are then
reordered.  A zero-byte file leaves `target = None`, and the very next
line `label = target[..., :1]` subscripts `None`, raising a
`TypeError`. -/
def pullItemAnn (labelFileSize : Nat) (rows : List DiskRow) :
    Except String (List TargetRow) :=
  if labelFileSize ≠ 0 then
    Except.ok (rows.map reorderRow)
  else
    Except.error "TypeError: NoneType object is not subscriptable"

/-- The target mapping returned by `pull_item` (ucf_jhmdb.py 128-132);
`orig_size` is omitted as it does not interact with the verified
properties. -/
structure UcfTarget where
  boxes : List Box
  labels : List ℤ
deriving Repr, DecidableEq, Inhabited

/-- Tail of `pull_item` (ucf_jhmdb.py 111-134): load and reorder the
annotation rows, apply the data transform, then split the transformed
rows into `boxes` (first four columns, unchanged) and `labels` (last
column with 1 subtracted).  The transform itself
(packages/dataset/transforms.py) is an external collaborator and is a
parameter here. -/
def pullItemTarget (transform : List TargetRow → List TargetRow)
    (labelFileSize : Nat) (rows : List DiskRow) : Except String UcfTarget :=
  match pullItemAnn labelFileSize rows with
  | Except.error e => Except.error e
  | Except.ok t =>
    let t2 := transform t
    Except.ok ⟨t2.map (fun r => r.box), t2.map (fun r => r.lbl - 1)⟩

/-! ### Uniform-matcher Criterion (models/detector/yowof/loss.py)

The matcher (matcher.py), the pairwise IoU and GIoU (utils/box_ops.py)
and the elementwise sigmoid focal loss (imported from utils.misc) are
collaborators whose values feed the loss aggregation; they enter the
embedding as function parameters.  The distributed collective of
loss.py 136-138 is modelled from the spec: `all_reduce` sums the local
foreground counts of all workers (`peerFg` carries the other workers'
summed count, 0 when distributed mode is inactive, in which case
`get_world_size` is 1). -/

/-- Per-sample ground truth of one frame after the reformatting at
loss.py 70-73: one `(box, label)` pair per object, the box from the
first four target columns, the label from the fifth. -/
abbrev TgtSample := List (Box × ℤ)

/-- Inputs of one clip frame: class logits `[B][M][C]`, predicted boxes
`[B][M]`, ground truth for the `B` batch samples. -/
structure FrameData where
  clsPred : List (List (List ℚ))
  boxPred : List (List Box)
  tgts : List TgtSample
deriving Repr, DecidableEq, Inhabited

/-- Type of the `UniformMatcher` call at loss.py 80-82: per batch
sample, a pair of equal-length index sequences (matched prediction
indices, matched target indices). -/
abbrev Matcher :=
  List (List Box) → List Box → List TgtSample → List (List Nat × List Nat)

/-- Criterion configuration: `num_classes`, the ignore IoU threshold
`cfg['igt']`, the positive IoU threshold `cfg['iou_t']` and the two
loss weights. -/
structure CriterionCfg where
  numClasses : Nat
  igt : ℚ
  iouT : ℚ
  lossClsWeight : ℚ
  lossRegWeight : ℚ
deriving Repr, DecidableEq, Inhabited

/-- Modelled from the spec: `box_cxcywh_to_xyxy` (utils/box_ops.py,
format conversion of spec section 4.1) turns a center-size box (fields
read as `cx, cy, w, h`) into corner format. -/
def box_cxcywh_to_xyxy (b : Box) : Box :=
  ⟨b.x1 - b.x2 / 2, b.y1 - b.y2 / 2, b.x1 + b.x2 / 2, b.y1 + b.y2 / 2⟩

/-- The matcher output `indices` of loss.py line 80. -/
def frameIndices (matcher : Matcher) (anchors : List Box) (fd : FrameData) :
    List (List Nat × List Nat) :=
  matcher fd.boxPred anchors fd.tgts

/-- Row maximum `iou.max(dim=1)[0]` for one predicted box against the
target boxes; the `numel() == 0` guard of loss.py 97-100 makes a frame
sample without targets contribute a zero entry for every box. -/
def maxIouRow (iouFn : Box → Box → ℚ) (tb : List Box) (p : Box) : ℚ :=
  match tb with
  | [] => 0
  | t :: ts => (ts.map (iouFn p)).foldl max (iouFn p t)

/-- The per-sample vector `max_iou` of loss.py 95-100. -/
def maxIouVec (iouFn : Box → Box → ℚ) (preds tb : List Box) : List ℚ :=
  preds.map (maxIouRow iouFn tb)

/-- The per-sample gather `a_iou[src_idx, tgt_idx]` of loss.py 102-108,
empty whenever the anchor-target IoU matrix is empty. -/
def posIouVec (iouFn : Box → Box → ℚ) (anch tb : List Box)
    (src tgt : List Nat) : List ℚ :=
  if anch.isEmpty || tb.isEmpty then []
  else (src.zip tgt).map (fun st => iouFn (anch.getD st.1 default) (tb.getD st.2 default))

/-- The concatenated vector `ious` of loss.py 109/112: per batch sample,
the max IoU of each predicted box against that sample's targets. -/
def frameIous (iouFn : Box → Box → ℚ) (fd : FrameData) : List ℚ :=
  (List.range fd.tgts.length).flatMap (fun b =>
    maxIouVec iouFn (fd.boxPred.getD b [])
      ((fd.tgts.getD b []).map Prod.fst))

/-- The concatenated vector `pos_ious` of loss.py 110/114: per batch
sample, the anchor-target IoU of each matched pair. -/
def framePosIous (iouFn : Box → Box → ℚ) (matcher : Matcher)
    (anchors : List Box) (fd : FrameData) : List ℚ :=
  let indices := frameIndices matcher anchors fd
  let anchXyxy := anchors.map box_cxcywh_to_xyxy
  (List.range fd.tgts.length).flatMap (fun b =>
    posIouVec iouFn anchXyxy ((fd.tgts.getD b []).map Prod.fst)
      (indices.getD b ([], [])).1 (indices.getD b ([], [])).2)

/-- The mask `ignore_idx = ious > self.cfg['igt']` of loss.py 113. -/
def frameIgnore (cfg : CriterionCfg) (iouFn : Box → Box → ℚ)
    (fd : FrameData) : List Bool :=
  (frameIous iouFn fd).map (fun v => decide (cfg.igt < v))

/-- The mask `pos_ignore_idx = pos_ious < self.cfg['iou_t']` of
loss.py 115. -/
def framePosIgnore (cfg : CriterionCfg) (iouFn : Box → Box → ℚ)
    (matcher : Matcher) (anchors : List Box) (fd : FrameData) : List Bool :=
  (framePosIous iouFn matcher anchors fd).map (fun v => decide (v < cfg.iouT))

/-- The flattened matched prediction indices `src_idx` of loss.py
117-119: each sample's matched indices shifted by
`sample index * number of anchors`. -/
def frameSrcIdx (matcher : Matcher) (anchors : List Box) (fd : FrameData) :
    List Nat :=
  (frameIndices matcher anchors fd).enum.flatMap
    (fun bp => bp.2.1.map (fun s => s + bp.1 * anchors.length))

/-- The flattened class logits `cls_pred.view(-1, num_classes)` of
loss.py 121: one row of `C` logits per (sample, anchor) slot. -/
def frameClsFlat (fd : FrameData) : List (List ℚ) :=
  fd.clsPred.flatten

/-- The gathered matched labels `tgt_cls_o` of loss.py 127 before
masking: `t['labels'][J]` concatenated over the batch. -/
def frameTgtLabels (matcher : Matcher) (anchors : List Box)
    (fd : FrameData) : List ℤ :=
  (fd.tgts.zip (frameIndices matcher anchors fd)).flatMap
    (fun tp => tp.2.2.map (fun j => (tp.1.map Prod.snd).getD j 0))

/-- The matched labels after `tgt_cls_o[pos_ignore_idx] = -1`
(loss.py 128). -/
def frameTgtClsO (cfg : CriterionCfg) (iouFn : Box → Box → ℚ)
    (matcher : Matcher) (anchors : List Box) (fd : FrameData) : List ℤ :=
  ((frameTgtLabels matcher anchors fd).zip
      (framePosIgnore cfg iouFn matcher anchors fd)).map
    (fun vi => if vi.2 then -1 else vi.1)

/-- The scatter pairs of the fancy-index assignment
`gt_cls[src_idx] = tgt_cls_o` (loss.py 130). -/
def frameScatterPairs (cfg : CriterionCfg) (iouFn : Box → Box → ℚ)
    (matcher : Matcher) (anchors : List Box) (fd : FrameData) :
    List (Nat × ℤ) :=
  (frameSrcIdx matcher anchors fd).zip
    (frameTgtClsO cfg iouFn matcher anchors fd)

/-- Sequential execution of a list of indexed writes on a list, as the
fancy-index assignment performs them (a later write to the same
position wins). -/
def scatterWrites (g : List ℤ) (ws : List (Nat × ℤ)) : List ℤ :=
  ws.foldl (fun g sv => g.set sv.1 sv.2) g

/-- The per-anchor classification target `gt_cls` of loss.py 122-130:
filled with the background id `num_classes`, then `-1` at the ignore
mask, then overwritten with the (masked) matched labels at the matched
slots. -/
def frameGtCls (cfg : CriterionCfg) (iouFn : Box → Box → ℚ)
    (matcher : Matcher) (anchors : List Box) (fd : FrameData) : List ℤ :=
  let base : List ℤ :=
    List.replicate (frameClsFlat fd).length (cfg.numClasses : ℤ)
  let masked := (base.zip (frameIgnore cfg iouFn fd)).map
    (fun vi => if vi.2 then -1 else vi.1)
  scatterWrites masked (frameScatterPairs cfg iouFn matcher anchors fd)

/-- The mask `foreground_idxs = (gt_cls >= 0) & (gt_cls != num_classes)`
of loss.py 132. -/
def frameForeground (cfg : CriterionCfg) (iouFn : Box → Box → ℚ)
    (matcher : Matcher) (anchors : List Box) (fd : FrameData) : List Bool :=
  (frameGtCls cfg iouFn matcher anchors fd).map
    (fun v => decide (0 ≤ v) && decide (v ≠ (cfg.numClasses : ℤ)))

/-- The local foreground count `num_foreground` of loss.py 133, before
the distributed reduction. -/
def frameNumFgLocal (cfg : CriterionCfg) (iouFn : Box → Box → ℚ)
    (matcher : Matcher) (anchors : List Box) (fd : FrameData) : Nat :=
  (frameForeground cfg iouFn matcher anchors fd).count true

/-- The normalizer contributed by one frame (loss.py 136-138).
Modelled from the spec: the guarded `all_reduce` sums the local
foreground counts of all participating workers (`peerFg` is the other
workers' summed count, 0 when distributed mode is inactive); the sum is
divided by the world size and clamped below at 1. -/
def frameNumFg (cfg : CriterionCfg) (iouFn : Box → Box → ℚ)
    (matcher : Matcher) (anchors : List Box) (fd : FrameData)
    (peerFg worldSize : Nat) : ℚ :=
  max 1 (((frameNumFgLocal cfg iouFn matcher anchors fd + peerFg : Nat) : ℚ)
    / (worldSize : ℚ))

/-- One row of the classification loss (loss.py 143-151): the one-hot
target row `gt_cls_target` carries a 1 at the ground-truth class of a
foreground row and is all zeros otherwise; the elementwise sigmoid
focal loss is summed over the row. -/
def rowFocal (focalFn : ℚ → ℚ → ℚ) (numClasses : Nat) (logits : List ℚ)
    (v : ℤ) : ℚ :=
  (logits.enum.map (fun cl =>
    focalFn cl.2
      (if 0 ≤ v ∧ v ≠ (numClasses : ℤ) ∧ v = (cl.1 : ℤ) then 1 else 0))).sum

/-- The summed classification loss of one frame (loss.py 141-152):
sigmoid focal loss over the valid rows `gt_cls >= 0`. -/
def frameLossLabels (cfg : CriterionCfg) (iouFn : Box → Box → ℚ)
    (focalFn : ℚ → ℚ → ℚ) (matcher : Matcher) (anchors : List Box)
    (fd : FrameData) : ℚ :=
  ((((frameClsFlat fd).zip (frameGtCls cfg iouFn matcher anchors fd)).filter
      (fun rv => decide (0 ≤ rv.2))).map
    (fun rv => rowFocal focalFn cfg.numClasses rv.1 rv.2)).sum

/-- The gathered matched target boxes of loss.py 156-157 before
masking. -/
def frameTgtBoxesRaw (matcher : Matcher) (anchors : List Box)
    (fd : FrameData) : List Box :=
  (fd.tgts.zip (frameIndices matcher anchors fd)).flatMap
    (fun tp => tp.2.2.map (fun j => (tp.1.map Prod.fst).getD j default))

/-- The summed regression loss of one frame (loss.py 155-164): keep the
matched pairs not masked by `pos_ignore_idx`, pair each kept predicted
box (gathered through the flattened `src_idx`) with its target box, and
sum `1 - giou` over the diagonal. -/
def frameLossBboxes (cfg : CriterionCfg) (iouFn giouFn : Box → Box → ℚ)
    (matcher : Matcher) (anchors : List Box) (fd : FrameData) : ℚ :=
  let posIgnore := framePosIgnore cfg iouFn matcher anchors fd
  let keptTgt := (((frameTgtBoxesRaw matcher anchors fd).zip posIgnore).filter
    (fun bi => !bi.2)).map Prod.fst
  let keptSrc := (((frameSrcIdx matcher anchors fd).zip posIgnore).filter
    (fun si => !si.2)).map Prod.fst
  let matchedPred := keptSrc.map (fun s => fd.boxPred.flatten.getD s default)
  ((matchedPred.zip keptTgt).map (fun pq => 1 - giouFn pq.1 pq.2)).sum

/-- The quantities one frame contributes to the clip loss. -/
structure FrameResult where
  gtCls : List ℤ
  numFgLocal : Nat
  numFg : ℚ
  lossLabels : ℚ
  lossBboxes : ℚ
deriving Repr, DecidableEq, Inhabited

/-- One iteration of the per-frame loop of `Criterion.__call__`
(loss.py 65-165), assembled from the staged definitions above. -/
def criterionFrame (cfg : CriterionCfg) (iouFn giouFn : Box → Box → ℚ)
    (focalFn : ℚ → ℚ → ℚ) (matcher : Matcher) (anchors : List Box)
    (fd : FrameData) (peerFg worldSize : Nat) : FrameResult :=
  ⟨frameGtCls cfg iouFn matcher anchors fd,
   frameNumFgLocal cfg iouFn matcher anchors fd,
   frameNumFg cfg iouFn matcher anchors fd peerFg worldSize,
   frameLossLabels cfg iouFn focalFn matcher anchors fd,
   frameLossBboxes cfg iouFn giouFn matcher anchors fd⟩

/-- The in-loop accumulators of `Criterion.__call__` (loss.py 60-62):
the per-frame loss lists and the running foreground-count sum. -/
structure ClipAcc where
  lossLabelsList : List ℚ
  lossBboxesList : List ℚ
  numFgs : ℚ
deriving Repr, DecidableEq, Inhabited

/-- One accumulation step of the per-frame loop (loss.py 139, 153,
165): append the frame's two losses, add its clamped foreground
count. -/
def clipStep (cfg : CriterionCfg) (iouFn giouFn : Box → Box → ℚ)
    (focalFn : ℚ → ℚ → ℚ) (matcher : Matcher) (anchors : List Box)
    (worldSize : Nat) (acc : ClipAcc) (fp : FrameData × Nat) : ClipAcc :=
  let r := criterionFrame cfg iouFn giouFn focalFn matcher anchors fp.1 fp.2 worldSize
  ⟨acc.lossLabelsList ++ [r.lossLabels],
   acc.lossBboxesList ++ [r.lossBboxes],
   acc.numFgs + r.numFg⟩

/-- The loss mapping returned by `Criterion.__call__`
(loss.py 173-177). -/
structure ClipResult where
  lossLabels : ℚ
  lossBboxes : ℚ
  losses : ℚ
  allFramesNumFgs : ℚ
deriving Repr, DecidableEq, Inhabited

/-- `Criterion.__call__` (loss.py 53-179): fold the per-frame loop over
the clip (each frame paired with the other workers' foreground count
for that frame's `all_reduce`), then divide the summed per-frame losses
by the accumulated foreground normalizer and combine them with the
configured weights (loss.py 167-177). -/
def criterionClip (cfg : CriterionCfg) (iouFn giouFn : Box → Box → ℚ)
    (focalFn : ℚ → ℚ → ℚ) (matcher : Matcher) (anchors : List Box)
    (frames : List FrameData) (peerFgs : List Nat) (worldSize : Nat) :
    ClipResult :=
  let acc := (frames.zip peerFgs).foldl
    (clipStep cfg iouFn giouFn focalFn matcher anchors worldSize) ⟨[], [], 0⟩
  let lossLabels := acc.lossLabelsList.sum / acc.numFgs
  let lossBboxes := acc.lossBboxesList.sum / acc.numFgs
  ⟨lossLabels, lossBboxes,
   cfg.lossClsWeight * lossLabels + cfg.lossRegWeight * lossBboxes,
   acc.numFgs⟩

/-! ### Verified properties -/

/-- Claim C2, code evaluation at the failing input: for a model with a
parameter `w` of shape `[2]` and a checkpoint carrying `w` with shape
`[3]`, the checking loop of `load_weight` drops `w`, after which the
strict `load_state_dict` fails on the now-missing key — the whole load
raises instead of completing and returning the model. -/
theorem c2_load_weight_shape_mismatch_raises :
    filterCheckpoint [("w", [2])] [("w", [3])] = [] ∧
    load_weight [("w", [2])] [("w", [3])] =
      Except.error "RuntimeError: state_dict key mismatch" := by
  exact ⟨rfl, rfl⟩

/-- Claim C6, code evaluation at the failing input: a zero-byte label
file leaves `target = None` in `pull_item`, and the immediately
following column slicing raises a TypeError; the sample is not handled
as a zero-length object list. -/
theorem c6_pull_item_empty_label_file_raises :
    pullItemAnn 0 [] =
      Except.error "TypeError: NoneType object is not subscriptable" := rfl

lemma streamInitStep_zero (prev v : String) :
    streamInitStep prev 0 v = (true, v) := by
  simp [streamInitStep]

lemma streamInitStep_succ (prev v : String) (n : Nat) (h : n ≠ 0) :
    streamInitStep prev n v = (decide (v ≠ prev), v) := by
  by_cases hv : v = prev <;> simp [streamInitStep, h, hv]

lemma streamInitFlagsAux_getD (vs : List String) :
    ∀ (prev : String) (n : Nat), n ≠ 0 → ∀ j : Nat, j < vs.length →
      ((streamInitFlagsAux prev n vs).getD j false = true ↔
        vs.getD j "" ≠ (prev :: vs).getD j "") := by
  induction vs with
  | nil =>
    intro prev n _ j hj
    simp at hj
  | cons v vs ih =>
    intro prev n hn j hj
    cases j with
    | zero =>
      simp [streamInitFlagsAux, streamInitStep_succ prev v n hn]
    | succ j =>
      have hj2 : j < vs.length := by simpa using hj
      have h := ih v (n + 1) (Nat.succ_ne_zero n) j hj2
      simpa [streamInitFlagsAux, streamInitStep_succ prev v n hn] using h

/-- Claim C8: `evaluate_frame_map_stream` sets the model's
initialization signal exactly on the first sample and on every sample
whose video identifier differs from the previous sample's, and on no
other sample. -/
theorem c8_stream_init_exactly_on_new_video (vids : List String) (i : Nat)
    (hi : i < vids.length) :
    ((streamInitFlags vids).getD i false = true ↔
      (i = 0 ∨ vids.getD i "" ≠ vids.getD (i - 1) "")) := by
  cases vids with
  | nil => simp at hi
  | cons v vs =>
    cases i with
    | zero => simp [streamInitFlags, streamInitFlagsAux, streamInitStep_zero]
    | succ j =>
      have hj : j < vs.length := by simpa using hi
      have h := streamInitFlagsAux_getD vs v 1 one_ne_zero j hj
      simpa [streamInitFlags, streamInitFlagsAux, streamInitStep_zero] using h

/-- Concrete instantiation of the C8 theorem at the second sample of a
three-sample stream. -/
theorem c8_stream_init_witness :
    1 < (["a", "a", "b"] : List String).length ∧
    ((streamInitFlags ["a", "a", "b"]).getD 1 false = true ↔
      (1 = 0 ∨ (["a", "a", "b"] : List String).getD 1 "" ≠
        (["a", "a", "b"] : List String).getD (1 - 1) "")) :=
  ⟨by decide, c8_stream_init_exactly_on_new_video ["a", "a", "b"] 1 (by decide)⟩

lemma foldl_updateStats (l : List (List PredRecord)) (acc : List PredRecord) :
    l.foldl updateStats acc = acc ++ l.flatten := by
  induction l generalizing acc with
  | nil => simp
  | cons x xs ih => simp [updateStats, ih, List.append_assoc]

lemma foldl_updateStats_flatten (L : List (List (List PredRecord)))
    (acc : List PredRecord) :
    L.foldl (fun acc batch => updateStats acc batch.flatten) acc
      = acc ++ (L.map List.flatten).flatten := by
  induction L generalizing acc with
  | nil => simp
  | cons x xs ih =>
    rw [List.foldl_cons, ih]
    simp [updateStats, List.append_assoc]

lemma map_flatten_flatten (L : List (List (List PredRecord))) :
    (L.map List.flatten).flatten = L.flatten.flatten := by
  induction L with
  | nil => simp
  | cons x xs ih => simp [ih]

/-- Claim C9: the streaming and the batched evaluation mode feed the
same `update_stats` / `calculate_mAP` aggregation path; with the same
per-sample detection records (in dataset order, under any batching) the
accumulated buffers coincide, and with identical buffers the aggregated
mAP is identical. -/
theorem c9_stream_batch_same_map (runEval : AvaEvalData → ℚ)
    (wl : List Nat) (vnames : List String)
    (batches : List (List (List PredRecord))) :
    batchAccumulate batches = streamAccumulate batches.flatten ∧
    calculateMAP runEval wl vnames (batchAccumulate batches) =
      calculateMAP runEval wl vnames (streamAccumulate batches.flatten) := by
  have h : batchAccumulate batches = streamAccumulate batches.flatten := by
    rw [batchAccumulate, streamAccumulate, foldl_updateStats,
      foldl_updateStats_flatten]
    simp [map_flatten_flatten]
  exact ⟨h, by rw [h]⟩

/-- Claim C10: the labels returned by `pull_item` are the on-disk class
ids decremented by 1, while the box coordinates are taken unchanged
from the transform output.  The label hypothesis is the target contract
of the external transform: it carries the label column through
unchanged. -/
theorem c10_pull_item_label_shift
    (transform : List TargetRow → List TargetRow)
    (labelFileSize : Nat) (rows : List DiskRow)
    (hsize : 0 < labelFileSize)
    (hT : (transform (rows.map reorderRow)).map (fun r => r.lbl)
        = (rows.map reorderRow).map (fun r => r.lbl)) :
    pullItemTarget transform labelFileSize rows =
      Except.ok ⟨(transform (rows.map reorderRow)).map (fun r => r.box),
                 rows.map (fun r => r.lbl - 1)⟩ := by
  have hne : labelFileSize ≠ 0 := Nat.pos_iff_ne_zero.mp hsize
  have h2 : (transform (rows.map reorderRow)).map (fun r => r.lbl - 1)
      = rows.map (fun r => r.lbl - 1) := by
    have h3 := congrArg (List.map (fun v : ℤ => v - 1)) hT
    simpa [List.map_map, Function.comp, reorderRow] using h3
  simp [pullItemTarget, pullItemAnn, hne, h2]

/-- Concrete instantiation of the C10 theorem: identity transform, a
one-row label file with class id 3, returned label 2. -/
theorem c10_pull_item_label_shift_witness :
    0 < 1 ∧
    ((id (([⟨3, 0, 0, 1, 1⟩] : List DiskRow).map reorderRow)).map
        (fun r => r.lbl)
      = (([⟨3, 0, 0, 1, 1⟩] : List DiskRow).map reorderRow).map
        (fun r => r.lbl)) ∧
    pullItemTarget id 1 [⟨3, 0, 0, 1, 1⟩] =
      Except.ok ⟨(id (([⟨3, 0, 0, 1, 1⟩] : List DiskRow).map reorderRow)).map
          (fun r => r.box),
        ([⟨3, 0, 0, 1, 1⟩] : List DiskRow).map (fun r => r.lbl - 1)⟩ :=
  ⟨by decide, by decide,
    c10_pull_item_label_shift id 1 [⟨3, 0, 0, 1, 1⟩] (by decide) (by decide)⟩

lemma appendAt_same {α : Type} (f : String → List α) (k : String) (v : α) :
    appendAt f k v k = f k ++ [v] := by
  simp [appendAt]

lemma appendAt_other {α : Type} (f : String → List α) (k : String) (v : α)
    (s : String) (h : s ≠ k) : appendAt f k v s = f s := by
  simp [appendAt, h]

lemma foldl_addEntry_spec (wl : List Nat) (key : String) (box : List ℚ) :
    ∀ (ps : List (Nat × ℚ)) (d : AvaEvalData),
      ((ps.foldl (addEntry wl key box) d).outLabels key
          = d.outLabels key
            ++ (ps.filter (fun cs => decide (cs.1 + 1 ∈ wl))).map
              (fun cs => cs.1 + 1))
      ∧ ((ps.foldl (addEntry wl key box) d).outScores key
          = d.outScores key
            ++ (ps.filter (fun cs => decide (cs.1 + 1 ∈ wl))).map
              (fun cs => cs.2))
      ∧ ((ps.foldl (addEntry wl key box) d).outBoxes key
          = d.outBoxes key
            ++ (ps.filter (fun cs => decide (cs.1 + 1 ∈ wl))).map
              (fun _ => box))
      ∧ ∀ k, k ≠ key →
          ((ps.foldl (addEntry wl key box) d).outLabels k = d.outLabels k
           ∧ (ps.foldl (addEntry wl key box) d).outScores k = d.outScores k
           ∧ (ps.foldl (addEntry wl key box) d).outBoxes k = d.outBoxes k) := by
  intro ps
  induction ps with
  | nil => intro d; simp
  | cons cs ps ih =>
    intro d
    by_cases h : cs.1 + 1 ∈ wl
    · have hstep : addEntry wl key box d cs =
        { outBoxes := appendAt d.outBoxes key box
          outLabels := appendAt d.outLabels key (cs.1 + 1)
          outScores := appendAt d.outScores key cs.2 } := by
        simp [addEntry, h]
      obtain ⟨ih1, ih2, ih3, ih4⟩ := ih (addEntry wl key box d cs)
      refine ⟨?_, ?_, ?_, ?_⟩
      · rw [List.foldl_cons, ih1, hstep]
        simp [appendAt_same, h]
      · rw [List.foldl_cons, ih2, hstep]
        simp [appendAt_same, h]
      · rw [List.foldl_cons, ih3, hstep]
        simp [appendAt_same, h]
      · intro k hk
        obtain ⟨j1, j2, j3⟩ := ih4 k hk
        rw [List.foldl_cons] at *
        rw [j1, j2, j3, hstep]
        simp [appendAt_other _ _ _ _ hk]
    · have hstep : addEntry wl key box d cs = d := by
        simp [addEntry, h]
      obtain ⟨ih1, ih2, ih3, ih4⟩ := ih (addEntry wl key box d cs)
      refine ⟨?_, ?_, ?_, ?_⟩
      · rw [List.foldl_cons, ih1, hstep]
        simp [h]
      · rw [List.foldl_cons, ih2, hstep]
        simp [h]
      · rw [List.foldl_cons, ih3, hstep]
        simp [h]
      · intro k hk
        obtain ⟨j1, j2, j3⟩ := ih4 k hk
        rw [List.foldl_cons, j1, j2, j3, hstep]
        exact ⟨rfl, rfl, rfl⟩

lemma zip_filter_map_fst {β γ : Type} (f : Nat → γ) (p : Nat → Bool) :
    ∀ (as : List Nat) (bs : List β), as.length = bs.length →
      ((as.zip bs).filter (fun x => p x.1)).map (fun x => f x.1)
        = (as.filter p).map f := by
  intro as
  induction as with
  | nil => intro bs _; simp
  | cons a as ih =>
    intro bs h
    cases bs with
    | nil => simp at h
    | cons b bs =>
      have h2 : as.length = bs.length := by simpa using h
      by_cases hp : p a = true
      · simp [List.filter_cons, hp, ih bs h2]
      · simp only [Bool.not_eq_true] at hp
        simp [List.filter_cons, hp, ih bs h2]

/-- Claim C7: appending one accumulated detection record,
`get_ava_eval_data` emits under the record's key exactly one entry per
class index in `0..79` whose 1-based id is in the class whitelist — the
label is the index plus 1, the box is reordered to `[y1, x1, y2, x2]`,
the score is that class's score — and any other key `k` is left
untouched; class indices outside the whitelist produce no entry. -/
theorem c7_get_ava_eval_data_entries (wl : List Nat) (vnames : List String)
    (preds : List PredRecord) (r : PredRecord) (k : String)
    (h80 : r.scores.length = 80)
    (hk : (k == recordKey vnames r) = false) :
    ((getAvaEvalData wl vnames (preds ++ [r])).outLabels (recordKey vnames r)
        = (getAvaEvalData wl vnames preds).outLabels (recordKey vnames r)
          ++ ((List.range 80).filter (fun c => decide (c + 1 ∈ wl))).map
            (fun c => c + 1))
    ∧ ((getAvaEvalData wl vnames (preds ++ [r])).outScores (recordKey vnames r)
        = (getAvaEvalData wl vnames preds).outScores (recordKey vnames r)
          ++ (r.scores.enum.filter (fun cs => decide (cs.1 + 1 ∈ wl))).map
            (fun cs => cs.2))
    ∧ ((getAvaEvalData wl vnames (preds ++ [r])).outBoxes (recordKey vnames r)
        = (getAvaEvalData wl vnames preds).outBoxes (recordKey vnames r)
          ++ List.replicate
            ((List.range 80).filter (fun c => decide (c + 1 ∈ wl))).length
            (yxyxBox r.box))
    ∧ ((getAvaEvalData wl vnames (preds ++ [r])).outLabels k
        = (getAvaEvalData wl vnames preds).outLabels k)
    ∧ ((getAvaEvalData wl vnames (preds ++ [r])).outScores k
        = (getAvaEvalData wl vnames preds).outScores k)
    ∧ ((getAvaEvalData wl vnames (preds ++ [r])).outBoxes k
        = (getAvaEvalData wl vnames preds).outBoxes k) := by
  have hne : k ≠ recordKey vnames r := by
    intro he
    rw [he] at hk
    simp at hk
  have hsplit : getAvaEvalData wl vnames (preds ++ [r])
      = addRecord wl vnames (getAvaEvalData wl vnames preds) r := by
    rw [getAvaEvalData, getAvaEvalData, List.foldl_append, List.foldl_cons,
      List.foldl_nil]
  obtain ⟨e1, e2, e3, e4⟩ := foldl_addEntry_spec wl (recordKey vnames r)
    (yxyxBox r.box) r.scores.enum (getAvaEvalData wl vnames preds)
  obtain ⟨f1, f2, f3⟩ := e4 k hne
  have henum : r.scores.enum = (List.range 80).zip r.scores := by
    rw [List.enum_eq_zip_range, h80]
  have hlab : (r.scores.enum.filter (fun cs => decide (cs.1 + 1 ∈ wl))).map
      (fun cs => cs.1 + 1)
      = ((List.range 80).filter (fun c => decide (c + 1 ∈ wl))).map
        (fun c => c + 1) := by
    rw [henum]
    exact zip_filter_map_fst (fun c => c + 1) (fun c => decide (c + 1 ∈ wl))
      (List.range 80) r.scores (by simp [h80])
  have hlen : (r.scores.enum.filter (fun cs => decide (cs.1 + 1 ∈ wl))).length
      = ((List.range 80).filter (fun c => decide (c + 1 ∈ wl))).length := by
    have := congrArg List.length hlab
    simpa using this
  have hbox : (r.scores.enum.filter (fun cs => decide (cs.1 + 1 ∈ wl))).map
      (fun _ => yxyxBox r.box)
      = List.replicate
          ((List.range 80).filter (fun c => decide (c + 1 ∈ wl))).length
          (yxyxBox r.box) := by
    rw [List.map_const']
    rw [hlen]
  refine ⟨?_, ?_, ?_, ?_, ?_, ?_⟩
  · rw [hsplit, addRecord, e1, hlab]
  · rw [hsplit, addRecord, e2]
  · rw [hsplit, addRecord, e3, hbox]
  · rw [hsplit, addRecord, f1]
  · rw [hsplit, addRecord, f2]
  · rw [hsplit, addRecord, f3]

/-- A concrete 80-class detection record used by the witnesses. -/
def sampleRecord : PredRecord :=
  ⟨⟨1, 2, 3, 4⟩, List.replicate 80 0, 0, 5⟩

/-- Concrete instantiation of the C7 theorem: whitelist `[1]`, video
name table `["v"]`, an empty prior buffer and the key "x". -/
theorem c7_get_ava_eval_data_witness :
    sampleRecord.scores.length = 80 ∧
    (("x" == recordKey ["v"] sampleRecord) = false) ∧
    (((getAvaEvalData [1] ["v"] ([] ++ [sampleRecord])).outLabels
          (recordKey ["v"] sampleRecord)
        = (getAvaEvalData [1] ["v"] []).outLabels
            (recordKey ["v"] sampleRecord)
          ++ ((List.range 80).filter (fun c => decide (c + 1 ∈ [1]))).map
            (fun c => c + 1))
    ∧ ((getAvaEvalData [1] ["v"] ([] ++ [sampleRecord])).outScores
          (recordKey ["v"] sampleRecord)
        = (getAvaEvalData [1] ["v"] []).outScores
            (recordKey ["v"] sampleRecord)
          ++ (sampleRecord.scores.enum.filter
              (fun cs => decide (cs.1 + 1 ∈ [1]))).map (fun cs => cs.2))
    ∧ ((getAvaEvalData [1] ["v"] ([] ++ [sampleRecord])).outBoxes
          (recordKey ["v"] sampleRecord)
        = (getAvaEvalData [1] ["v"] []).outBoxes
            (recordKey ["v"] sampleRecord)
          ++ List.replicate
            ((List.range 80).filter (fun c => decide (c + 1 ∈ [1]))).length
            (yxyxBox sampleRecord.box))
    ∧ ((getAvaEvalData [1] ["v"] ([] ++ [sampleRecord])).outLabels "x"
        = (getAvaEvalData [1] ["v"] []).outLabels "x")
    ∧ ((getAvaEvalData [1] ["v"] ([] ++ [sampleRecord])).outScores "x"
        = (getAvaEvalData [1] ["v"] []).outScores "x")
    ∧ ((getAvaEvalData [1] ["v"] ([] ++ [sampleRecord])).outBoxes "x"
        = (getAvaEvalData [1] ["v"] []).outBoxes "x")) :=
  ⟨by decide, by decide,
    c7_get_ava_eval_data_entries [1] ["v"] [] sampleRecord "x"
      (by decide) (by decide)⟩

lemma clipFoldSpec (cfg : CriterionCfg) (iouFn giouFn : Box → Box → ℚ)
    (focalFn : ℚ → ℚ → ℚ) (matcher : Matcher) (anchors : List Box)
    (worldSize : Nat) :
    ∀ (l : List (FrameData × Nat)) (acc : ClipAcc),
      l.foldl (clipStep cfg iouFn giouFn focalFn matcher anchors worldSize) acc
        = ⟨acc.lossLabelsList ++ l.map (fun fp =>
              frameLossLabels cfg iouFn focalFn matcher anchors fp.1),
           acc.lossBboxesList ++ l.map (fun fp =>
              frameLossBboxes cfg iouFn giouFn matcher anchors fp.1),
           acc.numFgs + (l.map (fun fp =>
              frameNumFg cfg iouFn matcher anchors fp.1 fp.2 worldSize)).sum⟩ := by
  intro l
  induction l with
  | nil => intro acc; simp
  | cons fp l ih =>
    intro acc
    rw [List.foldl_cons, ih]
    simp [clipStep, criterionFrame, List.append_assoc, add_assoc]

/-- Claim C1: the clip-level `loss_labels` and `loss_bboxes` equal the
per-frame loss sums divided by the accumulated normalizer, which sums
over the clip's frames the all-worker foreground count (local count
plus the peers' summed count contributed by the `all_reduce`) divided
by the distributed world size and floored at 1. -/
theorem c1_clip_loss_normalization (cfg : CriterionCfg)
    (iouFn giouFn : Box → Box → ℚ) (focalFn : ℚ → ℚ → ℚ)
    (matcher : Matcher) (anchors : List Box) (frames : List FrameData)
    (peerFgs : List Nat) (worldSize : Nat) :
    (criterionClip cfg iouFn giouFn focalFn matcher anchors frames peerFgs
        worldSize).lossLabels
      = ((frames.zip peerFgs).map (fun fp =>
          frameLossLabels cfg iouFn focalFn matcher anchors fp.1)).sum
        / ((frames.zip peerFgs).map (fun fp =>
            max 1 (((frameNumFgLocal cfg iouFn matcher anchors fp.1
              + fp.2 : Nat) : ℚ) / (worldSize : ℚ)))).sum
    ∧ (criterionClip cfg iouFn giouFn focalFn matcher anchors frames peerFgs
        worldSize).lossBboxes
      = ((frames.zip peerFgs).map (fun fp =>
          frameLossBboxes cfg iouFn giouFn matcher anchors fp.1)).sum
        / ((frames.zip peerFgs).map (fun fp =>
            max 1 (((frameNumFgLocal cfg iouFn matcher anchors fp.1
              + fp.2 : Nat) : ℚ) / (worldSize : ℚ)))).sum := by
  constructor <;>
    simp [criterionClip,
      clipFoldSpec cfg iouFn giouFn focalFn matcher anchors worldSize
        (frames.zip peerFgs) ⟨[], [], 0⟩, frameNumFg]

/-- Claim C4: when no prediction slot is a true positive on any frame
on any worker, every frame's clamped normalizer is 1, so the
accumulated normalizer equals the clip length and is strictly positive:
the divisions of loss.py 168-169 are by a nonzero quantity and the
returned losses are well-defined finite rationals. -/
theorem c4_zero_foreground_normalizer (cfg : CriterionCfg)
    (iouFn giouFn : Box → Box → ℚ) (focalFn : ℚ → ℚ → ℚ)
    (matcher : Matcher) (anchors : List Box) (frames : List FrameData)
    (peerFgs : List Nat) (worldSize : Nat)
    (hne : 0 < frames.length)
    (hlen : peerFgs.length = frames.length)
    (hfg : (frames.zip peerFgs).all (fun fp =>
        decide (frameNumFgLocal cfg iouFn matcher anchors fp.1 = 0)
          && decide (fp.2 = 0)) = true) :
    (criterionClip cfg iouFn giouFn focalFn matcher anchors frames peerFgs
        worldSize).allFramesNumFgs = (frames.length : ℚ)
    ∧ 0 < (criterionClip cfg iouFn giouFn focalFn matcher anchors frames
        peerFgs worldSize).allFramesNumFgs := by
  have hfg2 : ∀ fp ∈ frames.zip peerFgs,
      frameNumFgLocal cfg iouFn matcher anchors fp.1 = 0 ∧ fp.2 = 0 := by
    intro fp hfp
    have := List.all_eq_true.mp hfg fp hfp
    simpa using this
  have hone : ∀ fp ∈ frames.zip peerFgs,
      frameNumFg cfg iouFn matcher anchors fp.1 fp.2 worldSize = 1 := by
    intro fp hfp
    obtain ⟨h1, h2⟩ := hfg2 fp hfp
    rw [frameNumFg, h1, h2]
    norm_num
  have hmap : (frames.zip peerFgs).map (fun fp =>
      frameNumFg cfg iouFn matcher anchors fp.1 fp.2 worldSize)
      = List.replicate (frames.zip peerFgs).length (1 : ℚ) := by
    rw [← List.map_const']
    exact List.map_congr_left hone
  have hlen2 : (frames.zip peerFgs).length = frames.length := by
    rw [List.length_zip, hlen]
    exact Nat.min_self _
  have hsum : (criterionClip cfg iouFn giouFn focalFn matcher anchors frames
      peerFgs worldSize).allFramesNumFgs = (frames.length : ℚ) := by
    simp [criterionClip,
      clipFoldSpec cfg iouFn giouFn focalFn matcher anchors worldSize
        (frames.zip peerFgs) ⟨[], [], 0⟩, hmap, hlen2]
  refine ⟨hsum, ?_⟩
  rw [hsum]
  exact_mod_cast hne

lemma frameTgtLabels_nil (matcher : Matcher) (anchors : List Box)
    (fd : FrameData)
    (hM : ∀ p ∈ frameIndices matcher anchors fd, p.1 = [] ∧ p.2 = []) :
    frameTgtLabels matcher anchors fd = [] := by
  rw [frameTgtLabels, List.flatMap_eq_nil_iff]
  intro tp htp
  rw [(hM tp.2 (List.of_mem_zip htp).2).2]
  rfl

lemma frameTgtBoxesRaw_nil (matcher : Matcher) (anchors : List Box)
    (fd : FrameData)
    (hM : ∀ p ∈ frameIndices matcher anchors fd, p.1 = [] ∧ p.2 = []) :
    frameTgtBoxesRaw matcher anchors fd = [] := by
  rw [frameTgtBoxesRaw, List.flatMap_eq_nil_iff]
  intro tp htp
  rw [(hM tp.2 (List.of_mem_zip htp).2).2]
  rfl

lemma frameScatterPairs_nil (cfg : CriterionCfg) (iouFn : Box → Box → ℚ)
    (matcher : Matcher) (anchors : List Box) (fd : FrameData)
    (hM : ∀ p ∈ frameIndices matcher anchors fd, p.1 = [] ∧ p.2 = []) :
    frameScatterPairs cfg iouFn matcher anchors fd = [] := by
  rw [frameScatterPairs, frameTgtClsO,
    frameTgtLabels_nil matcher anchors fd hM]
  simp

lemma frameGtCls_no_matches (cfg : CriterionCfg) (iouFn : Box → Box → ℚ)
    (matcher : Matcher) (anchors : List Box) (fd : FrameData)
    (hM : ∀ p ∈ frameIndices matcher anchors fd, p.1 = [] ∧ p.2 = []) :
    ∀ v ∈ frameGtCls cfg iouFn matcher anchors fd,
      v = -1 ∨ v = (cfg.numClasses : ℤ) := by
  intro v hv
  simp only [frameGtCls,
    frameScatterPairs_nil cfg iouFn matcher anchors fd hM] at hv
  rw [scatterWrites] at hv
  simp only [List.foldl_nil, List.mem_map] at hv
  obtain ⟨vi, hvi, heq⟩ := hv
  have h1 : vi.1 = (cfg.numClasses : ℤ) :=
    List.eq_of_mem_replicate (List.of_mem_zip hvi).1
  cases h2 : vi.2 <;> simp [← heq, h1, h2]

lemma frameNumFgLocal_no_matches (cfg : CriterionCfg)
    (iouFn : Box → Box → ℚ) (matcher : Matcher) (anchors : List Box)
    (fd : FrameData)
    (hM : ∀ p ∈ frameIndices matcher anchors fd, p.1 = [] ∧ p.2 = []) :
    frameNumFgLocal cfg iouFn matcher anchors fd = 0 := by
  rw [frameNumFgLocal, List.count_eq_zero]
  intro hmem
  rw [frameForeground] at hmem
  obtain ⟨v, hv, hpred⟩ := List.mem_map.mp hmem
  rcases frameGtCls_no_matches cfg iouFn matcher anchors fd hM v hv with h | h
  · rw [h] at hpred
    simp at hpred
  · rw [h] at hpred
    simp at hpred

lemma frameLossBboxes_no_matches (cfg : CriterionCfg)
    (iouFn giouFn : Box → Box → ℚ) (matcher : Matcher) (anchors : List Box)
    (fd : FrameData)
    (hM : ∀ p ∈ frameIndices matcher anchors fd, p.1 = [] ∧ p.2 = []) :
    frameLossBboxes cfg iouFn giouFn matcher anchors fd = 0 := by
  simp only [frameLossBboxes,
    frameTgtBoxesRaw_nil matcher anchors fd hM]
  simp

/-- Claim C3: a frame whose per-sample ground-truth lists are all empty
contributes zero regression loss and a zero foreground count (hence no
foreground classification entries); the embedded computation is total,
so nothing is raised.  The second hypothesis is the matcher contract of
spec section 4.2: a sample with zero ground-truth objects yields empty
index sequences. -/
theorem c3_empty_frame_contributes_zero (cfg : CriterionCfg)
    (iouFn giouFn : Box → Box → ℚ) (focalFn : ℚ → ℚ → ℚ)
    (matcher : Matcher) (anchors : List Box) (fd : FrameData)
    (peerFg worldSize : Nat)
    (hT : fd.tgts.all (fun t => t.isEmpty) = true)
    (hM : (frameIndices matcher anchors fd).all
        (fun p => p.1.isEmpty && p.2.isEmpty) = true) :
    (criterionFrame cfg iouFn giouFn focalFn matcher anchors fd peerFg
        worldSize).lossBboxes = 0
    ∧ (criterionFrame cfg iouFn giouFn focalFn matcher anchors fd peerFg
        worldSize).numFgLocal = 0 := by
  have hM2 : ∀ p ∈ frameIndices matcher anchors fd, p.1 = [] ∧ p.2 = [] := by
    intro p hp
    have := List.all_eq_true.mp hM p hp
    simpa using this
  exact ⟨frameLossBboxes_no_matches cfg iouFn giouFn matcher anchors fd hM2,
    frameNumFgLocal_no_matches cfg iouFn matcher anchors fd hM2⟩

/-- Concrete pairwise IoU stand-in used by the witnesses. -/
def sampleIou : Box → Box → ℚ := fun a b => if a = b then 1 else 0

/-- Concrete pairwise GIoU stand-in used by the witnesses. -/
def sampleGiou : Box → Box → ℚ := fun _ _ => 0

/-- Concrete elementwise focal-loss stand-in used by the witnesses. -/
def sampleFocal : ℚ → ℚ → ℚ := fun l t => max l t

/-- A concrete anchor set (two center-size anchors). -/
def sampleAnchors : List Box := [⟨0, 0, 2, 2⟩, ⟨1, 1, 2, 2⟩]

/-- A concrete configuration: 2 classes, igt = 1, iou_t = 0. -/
def sampleCfg : CriterionCfg := ⟨2, 1, 0, 1, 1⟩

/-- A one-sample frame with two predictions and no ground truth. -/
def emptyTgtFrame : FrameData :=
  ⟨[[[0, 0], [0, 0]]], [[⟨0, 0, 1, 1⟩, ⟨1, 1, 2, 2⟩]], [[]]⟩

/-- A matcher returning the empty assignment for one sample. -/
def emptyMatcher : Matcher := fun _ _ _ => [([], [])]

/-- Concrete instantiation of the C3 theorem on a frame without
ground-truth objects. -/
theorem c3_empty_frame_witness :
    (emptyTgtFrame.tgts.all (fun t => t.isEmpty) = true) ∧
    ((frameIndices emptyMatcher sampleAnchors emptyTgtFrame).all
        (fun p => p.1.isEmpty && p.2.isEmpty) = true) ∧
    ((criterionFrame sampleCfg sampleIou sampleGiou sampleFocal emptyMatcher
        sampleAnchors emptyTgtFrame 0 1).lossBboxes = 0
      ∧ (criterionFrame sampleCfg sampleIou sampleGiou sampleFocal
          emptyMatcher sampleAnchors emptyTgtFrame 0 1).numFgLocal = 0) :=
  ⟨by decide, by decide,
    c3_empty_frame_contributes_zero sampleCfg sampleIou sampleGiou sampleFocal
      emptyMatcher sampleAnchors emptyTgtFrame 0 1 (by decide) (by decide)⟩

/-- Concrete instantiation of the C4 theorem: a one-frame clip with no
foreground matches on any worker. -/
theorem c4_zero_foreground_witness :
    0 < ([emptyTgtFrame] : List FrameData).length ∧
    ([0] : List Nat).length = ([emptyTgtFrame] : List FrameData).length ∧
    ((([emptyTgtFrame] : List FrameData).zip [0]).all (fun fp =>
        decide (frameNumFgLocal sampleCfg sampleIou emptyMatcher sampleAnchors
          fp.1 = 0) && decide (fp.2 = 0)) = true) ∧
    ((criterionClip sampleCfg sampleIou sampleGiou sampleFocal emptyMatcher
        sampleAnchors [emptyTgtFrame] [0] 1).allFramesNumFgs
      = (([emptyTgtFrame] : List FrameData).length : ℚ)
    ∧ 0 < (criterionClip sampleCfg sampleIou sampleGiou sampleFocal
        emptyMatcher sampleAnchors [emptyTgtFrame] [0] 1).allFramesNumFgs) :=
  ⟨by decide, by decide, by decide,
    c4_zero_foreground_normalizer sampleCfg sampleIou sampleGiou sampleFocal
      emptyMatcher sampleAnchors [emptyTgtFrame] [0] 1
      (by decide) (by decide) (by decide)⟩

/-- One update of the last-write tracker for position `i`: a scatter
pair writing position `i` overrides the current value. -/
def lastWriteUpd (i : Nat) (acc : Option ℤ) (sv : Nat × ℤ) : Option ℤ :=
  if sv.1 = i then some sv.2 else acc

/-- The value written last at position `i` by a list of scatter pairs,
if any pair writes there — the sequential semantics of the
fancy-index assignment `gt_cls[src_idx] = tgt_cls_o`. -/
def lastWriteAt (ws : List (Nat × ℤ)) (i : Nat) : Option ℤ :=
  ws.foldl (lastWriteUpd i) none

lemma foldl_lastWriteUpd_init (i : Nat) :
    ∀ (ws : List (Nat × ℤ)) (o : Option ℤ),
      ws.foldl (lastWriteUpd i) o = (ws.foldl (lastWriteUpd i) none).or o := by
  intro ws
  induction ws with
  | nil => intro o; simp
  | cons sv ws ih =>
    intro o
    rw [List.foldl_cons, List.foldl_cons, ih (lastWriteUpd i o sv),
      ih (lastWriteUpd i none sv)]
    rcases hF : ws.foldl (lastWriteUpd i) none with _ | x
    · by_cases h : sv.1 = i <;> simp [lastWriteUpd, h]
    · by_cases h : sv.1 = i <;> simp [lastWriteUpd, h]

lemma scatterWrites_length : ∀ (ws : List (Nat × ℤ)) (g : List ℤ),
    (scatterWrites g ws).length = g.length := by
  intro ws
  induction ws with
  | nil => intro g; rfl
  | cons sv ws ih =>
    intro g
    rw [scatterWrites, List.foldl_cons]
    have h := ih (g.set sv.1 sv.2)
    rw [scatterWrites] at h
    rw [h, List.length_set]

lemma scatterWrites_getD (i : Nat) (d : ℤ) :
    ∀ (ws : List (Nat × ℤ)) (g : List ℤ), i < g.length →
      (scatterWrites g ws).getD i d = (lastWriteAt ws i).getD (g.getD i d) := by
  intro ws
  induction ws with
  | nil => intro g _; rfl
  | cons sv ws ih =>
    intro g hi
    rw [scatterWrites, List.foldl_cons]
    have hlen : i < (g.set sv.1 sv.2).length := by rwa [List.length_set]
    have step := ih (g.set sv.1 sv.2) hlen
    rw [scatterWrites] at step
    rw [step]
    simp only [lastWriteAt, List.foldl_cons]
    rw [foldl_lastWriteUpd_init i ws (lastWriteUpd i none sv)]
    by_cases h : sv.1 = i
    · have hset : (g.set sv.1 sv.2).getD i d = sv.2 := by
        rw [h, List.getD_eq_getElem?_getD, List.getElem?_set_self hi]
        rfl
      rcases hF : ws.foldl (lastWriteUpd i) none with _ | x <;>
        simp [lastWriteAt, hF, lastWriteUpd, h, hset,
          List.getElem?_set_self hi]
    · have hset : (g.set sv.1 sv.2).getD i d = g.getD i d := by
        rw [List.getD_eq_getElem?_getD, List.getElem?_set_ne h,
          List.getD_eq_getElem?_getD]
      rcases hF : ws.foldl (lastWriteUpd i) none with _ | x <;>
        simp [lastWriteAt, hF, lastWriteUpd, h, hset,
          List.getElem?_set_ne h]

lemma mem_scatterWrites : ∀ (ws : List (Nat × ℤ)) (g : List ℤ) (v : ℤ),
    v ∈ scatterWrites g ws → v ∈ g ∨ v ∈ ws.map Prod.snd := by
  intro ws
  induction ws with
  | nil => intro g v hv; exact Or.inl hv
  | cons sv ws ih =>
    intro g v hv
    rw [scatterWrites, List.foldl_cons] at hv
    have hv2 : v ∈ scatterWrites (g.set sv.1 sv.2) ws := by
      rw [scatterWrites]; exact hv
    rcases ih (g.set sv.1 sv.2) v hv2 with h | h
    · rcases List.mem_or_eq_of_mem_set h with h2 | h2
      · exact Or.inl h2
      · exact Or.inr (by simp [h2])
    · refine Or.inr ?_
      rw [List.map_cons]
      exact List.mem_cons_of_mem _ h

lemma getD_map_eq {α β : Type} (f : α → β) (l : List α) (i : Nat)
    (hi : i < l.length) (d : β) (d2 : α) :
    (l.map f).getD i d = f (l.getD i d2) := by
  rw [List.getD_eq_getElem?_getD, List.getD_eq_getElem?_getD,
    List.getElem?_eq_getElem (by simpa using hi),
    List.getElem?_eq_getElem hi]
  simp

lemma getD_zip_eq {α β : Type} (as : List α) (bs : List β) (i : Nat)
    (hia : i < as.length) (hib : i < bs.length) (da : α) (db : β) :
    (as.zip bs).getD i (da, db) = (as.getD i da, bs.getD i db) := by
  have hz : i < (as.zip bs).length := by
    rw [List.length_zip]
    omega
  rw [List.getD_eq_getElem?_getD, List.getElem?_eq_getElem hz,
    List.getD_eq_getElem?_getD, List.getElem?_eq_getElem hia,
    List.getD_eq_getElem?_getD, List.getElem?_eq_getElem hib]
  simp [List.getElem_zip]

lemma getD_int_cases (l : List ℤ) (j : Nat) :
    l.getD j 0 ∈ l ∨ l.getD j 0 = 0 := by
  rcases Nat.lt_or_ge j l.length with h | h
  · left
    rw [List.getD_eq_getElem?_getD, List.getElem?_eq_getElem h]
    exact List.getElem_mem h
  · right
    rw [List.getD_eq_getElem?_getD, List.getElem?_eq_none (by simpa using h)]
    rfl

lemma frameGtCls_value_range (cfg : CriterionCfg) (iouFn : Box → Box → ℚ)
    (matcher : Matcher) (anchors : List Box) (fd : FrameData)
    (hlab : fd.tgts.all (fun t => t.all (fun r =>
        decide (0 ≤ r.2) && decide (r.2 < (cfg.numClasses : ℤ)))) = true) :
    ∀ v ∈ frameGtCls cfg iouFn matcher anchors fd,
      v = -1 ∨ (0 ≤ v ∧ v ≤ (cfg.numClasses : ℤ)) := by
  have hlab2 : ∀ t ∈ fd.tgts, ∀ r ∈ t,
      0 ≤ r.2 ∧ r.2 < (cfg.numClasses : ℤ) := by
    intro t ht r hr
    have h1 := List.all_eq_true.mp hlab t ht
    have h2 := List.all_eq_true.mp h1 r hr
    simpa using h2
  intro v hv
  simp only [frameGtCls] at hv
  rcases mem_scatterWrites _ _ v hv with h | h
  · obtain ⟨vi, hvi, heq⟩ := List.mem_map.mp h
    have h1 : vi.1 = (cfg.numClasses : ℤ) :=
      List.eq_of_mem_replicate (List.of_mem_zip hvi).1
    rcases h2 : vi.2
    · right
      rw [← heq, h2]
      simp [h1, Int.natCast_nonneg]
    · left
      rw [← heq, h2]
      simp
  · obtain ⟨sv, hsv, heq0⟩ := List.mem_map.mp h
    rw [frameScatterPairs] at hsv
    have hsnd : sv.2 ∈ frameTgtClsO cfg iouFn matcher anchors fd :=
      (List.of_mem_zip hsv).2
    rw [frameTgtClsO] at hsnd
    obtain ⟨vi, hvi, heq⟩ := List.mem_map.mp hsnd
    rcases hb : vi.2
    · have hlabmem : vi.1 ∈ frameTgtLabels matcher anchors fd :=
        (List.of_mem_zip hvi).1
      rw [frameTgtLabels] at hlabmem
      obtain ⟨tp, htp, hv2⟩ := List.mem_flatMap.mp hlabmem
      obtain ⟨j, _, hje⟩ := List.mem_map.mp hv2
      rcases getD_int_cases (tp.1.map Prod.snd) j with hm | hm
      · obtain ⟨r, hr, hre⟩ := List.mem_map.mp hm
        have hrange := hlab2 tp.1 (List.of_mem_zip htp).1 r hr
        right
        rw [← heq0, ← heq, hb]
        simp only [Bool.false_eq_true, if_false]
        rw [← hje, ← hre]
        exact ⟨hrange.1, le_of_lt hrange.2⟩
      · right
        rw [← heq0, ← heq, hb]
        simp only [Bool.false_eq_true, if_false]
        rw [← hje, hm]
        exact ⟨le_refl 0, Int.natCast_nonneg _⟩
    · left
      rw [← heq0, ← heq, hb]
      simp

/-- Claim C5: the per-anchor classification target of one frame holds,
at every slot `i`, the value written last by the scatter of (masked)
matched labels when slot `i` is matched, and otherwise `-1` if the
slot's predicted-box max IoU exceeds the ignore threshold and the
background id `num_classes` if not; each scattered value at match `k`
is `-1` when the matched pair's anchor-target IoU is below the positive
threshold and the matched ground-truth label otherwise; the focal
classification loss is summed over exactly the slots whose target is
not `-1`; and the foreground slots are exactly those whose target lies
in `[0, num_classes)`. -/
theorem c5_classification_target_structure (cfg : CriterionCfg)
    (iouFn : Box → Box → ℚ) (focalFn : ℚ → ℚ → ℚ) (matcher : Matcher)
    (anchors : List Box) (fd : FrameData) (i k : Nat)
    (hlab : fd.tgts.all (fun t => t.all (fun r =>
        decide (0 ≤ r.2) && decide (r.2 < (cfg.numClasses : ℤ)))) = true)
    (hi : i < (frameGtCls cfg iouFn matcher anchors fd).length)
    (hk : k < (frameTgtClsO cfg iouFn matcher anchors fd).length) :
    ((frameGtCls cfg iouFn matcher anchors fd).getD i 0
        = (lastWriteAt (frameScatterPairs cfg iouFn matcher anchors fd) i).getD
          (if (frameIgnore cfg iouFn fd).getD i false then -1
           else (cfg.numClasses : ℤ)))
    ∧ ((frameIgnore cfg iouFn fd).getD i false
        = decide (cfg.igt < (frameIous iouFn fd).getD i 0))
    ∧ ((frameTgtClsO cfg iouFn matcher anchors fd).getD k 0
        = if (framePosIous iouFn matcher anchors fd).getD k 0 < cfg.iouT
          then -1 else (frameTgtLabels matcher anchors fd).getD k 0)
    ∧ (frameLossLabels cfg iouFn focalFn matcher anchors fd
        = ((((frameClsFlat fd).zip
              (frameGtCls cfg iouFn matcher anchors fd)).filter
            (fun rv => decide (rv.2 ≠ -1))).map
          (fun rv => rowFocal focalFn cfg.numClasses rv.1 rv.2)).sum)
    ∧ ((frameForeground cfg iouFn matcher anchors fd).getD i false = true ↔
        (0 ≤ (frameGtCls cfg iouFn matcher anchors fd).getD i 0
          ∧ (frameGtCls cfg iouFn matcher anchors fd).getD i 0
            < (cfg.numClasses : ℤ))) := by
  have hunf : frameGtCls cfg iouFn matcher anchors fd
      = scatterWrites
          (((List.replicate (frameClsFlat fd).length
              ((cfg.numClasses : ℤ))).zip (frameIgnore cfg iouFn fd)).map
            (fun vi => if vi.2 then -1 else vi.1))
          (frameScatterPairs cfg iouFn matcher anchors fd) := rfl
  have hmlen : i < (((List.replicate (frameClsFlat fd).length
      ((cfg.numClasses : ℤ))).zip (frameIgnore cfg iouFn fd)).map
        (fun vi => if vi.2 then -1 else vi.1)).length := by
    rw [hunf] at hi
    rwa [scatterWrites_length] at hi
  have hzlen : i < ((List.replicate (frameClsFlat fd).length
      ((cfg.numClasses : ℤ))).zip (frameIgnore cfg iouFn fd)).length := by
    simpa using hmlen
  have hblen : i < (List.replicate (frameClsFlat fd).length
      ((cfg.numClasses : ℤ))).length := by
    rw [List.length_zip] at hzlen
    omega
  have hilen : i < (frameIgnore cfg iouFn fd).length := by
    rw [List.length_zip] at hzlen
    omega
  have hioulen : i < (frameIous iouFn fd).length := by
    rw [frameIgnore, List.length_map] at hilen
    exact hilen
  have hmask : (((List.replicate (frameClsFlat fd).length
      ((cfg.numClasses : ℤ))).zip (frameIgnore cfg iouFn fd)).map
        (fun vi => if vi.2 then -1 else vi.1)).getD i 0
      = (if (frameIgnore cfg iouFn fd).getD i false then -1
         else (cfg.numClasses : ℤ)) := by
    rw [getD_map_eq _ _ _ hzlen _ ((cfg.numClasses : ℤ), false),
      getD_zip_eq _ _ _ hblen hilen]
    have hrep : (List.replicate (frameClsFlat fd).length
        ((cfg.numClasses : ℤ))).getD i (cfg.numClasses : ℤ)
        = (cfg.numClasses : ℤ) := by
      rw [List.getD_eq_getElem?_getD, List.getElem?_replicate]
      split <;> rfl
    simp [hrep]
  refine ⟨?_, ?_, ?_, ?_, ?_⟩
  · rw [hunf, scatterWrites_getD _ _ _ _ hmlen, hmask]
  · rw [frameIgnore, getD_map_eq _ _ _ hioulen _ 0]
  · have hk2 := hk
    rw [frameTgtClsO, List.length_map, List.length_zip] at hk2
    have hklab : k < (frameTgtLabels matcher anchors fd).length := by omega
    have hkpi : k < (framePosIgnore cfg iouFn matcher anchors fd).length := by
      omega
    have hkpo : k < (framePosIous iouFn matcher anchors fd).length := by
      rw [framePosIgnore, List.length_map] at hkpi
      exact hkpi
    rw [frameTgtClsO,
      getD_map_eq _ _ _ (by rw [List.length_zip]; omega) _ (0, false),
      getD_zip_eq _ _ _ hklab hkpi, framePosIgnore,
      getD_map_eq _ _ _ hkpo _ 0]
    by_cases hlt : (framePosIous iouFn matcher anchors fd).getD k 0 < cfg.iouT
    · simp [hlt]
    · simp [hlt]
  · have hcong : ∀ rv ∈ (frameClsFlat fd).zip
        (frameGtCls cfg iouFn matcher anchors fd),
        decide (0 ≤ rv.2) = decide (rv.2 ≠ -1) := by
      intro rv hrv
      have h2 := frameGtCls_value_range cfg iouFn matcher anchors fd hlab
        rv.2 (List.of_mem_zip hrv).2
      rw [decide_eq_decide]
      rcases h2 with h | h
      · simp [h]
      · have hne : rv.2 ≠ -1 := by omega
        simp [h.1, hne]
    rw [frameLossLabels, List.filter_congr hcong]
  · have hgd : (frameForeground cfg iouFn matcher anchors fd).getD i false
        = (decide (0 ≤ (frameGtCls cfg iouFn matcher anchors fd).getD i 0)
          && decide ((frameGtCls cfg iouFn matcher anchors fd).getD i 0
            ≠ (cfg.numClasses : ℤ))) := by
      rw [frameForeground, getD_map_eq _ _ _ hi _ 0]
    have hmem : (frameGtCls cfg iouFn matcher anchors fd).getD i 0
        ∈ frameGtCls cfg iouFn matcher anchors fd := by
      rw [List.getD_eq_getElem?_getD, List.getElem?_eq_getElem hi]
      exact List.getElem_mem hi
    have hrange := frameGtCls_value_range cfg iouFn matcher anchors fd hlab
      _ hmem
    rw [hgd]
    constructor
    · intro hb
      simp only [Bool.and_eq_true, decide_eq_true_eq] at hb
      refine ⟨hb.1, ?_⟩
      rcases hrange with h | h
      · omega
      · rcases lt_or_eq_of_le h.2 with h2 | h2
        · exact h2
        · exact absurd h2 hb.2
    · intro hb
      simp only [Bool.and_eq_true, decide_eq_true_eq]
      exact ⟨hb.1, by omega⟩

/-- A one-sample frame with two predictions and one ground-truth object
of label 1. -/
def matchFrame : FrameData :=
  ⟨[[[1, 2], [3, 4]]], [[⟨0, 0, 1, 1⟩, ⟨1, 1, 2, 2⟩]], [[(⟨0, 0, 1, 1⟩, 1)]]⟩

/-- A matcher assigning prediction 0 to target 0 for one sample. -/
def oneMatcher : Matcher := fun _ _ _ => [([0], [0])]

/-- Concrete instantiation of the C5 theorem at slot 0 and match 0 of a
one-object frame. -/
theorem c5_classification_target_witness :
    (matchFrame.tgts.all (fun t => t.all (fun r =>
        decide (0 ≤ r.2) && decide (r.2 < (sampleCfg.numClasses : ℤ))))
      = true) ∧
    0 < (frameGtCls sampleCfg sampleIou oneMatcher sampleAnchors
      matchFrame).length ∧
    0 < (frameTgtClsO sampleCfg sampleIou oneMatcher sampleAnchors
      matchFrame).length ∧
    (((frameGtCls sampleCfg sampleIou oneMatcher sampleAnchors
        matchFrame).getD 0 0
        = (lastWriteAt (frameScatterPairs sampleCfg sampleIou oneMatcher
            sampleAnchors matchFrame) 0).getD
          (if (frameIgnore sampleCfg sampleIou matchFrame).getD 0 false
           then -1 else (sampleCfg.numClasses : ℤ)))
    ∧ ((frameIgnore sampleCfg sampleIou matchFrame).getD 0 false
        = decide (sampleCfg.igt
          < (frameIous sampleIou matchFrame).getD 0 0))
    ∧ ((frameTgtClsO sampleCfg sampleIou oneMatcher sampleAnchors
          matchFrame).getD 0 0
        = if (framePosIous sampleIou oneMatcher sampleAnchors
            matchFrame).getD 0 0 < sampleCfg.iouT
          then -1
          else (frameTgtLabels oneMatcher sampleAnchors matchFrame).getD 0 0)
    ∧ (frameLossLabels sampleCfg sampleIou sampleFocal oneMatcher
          sampleAnchors matchFrame
        = ((((frameClsFlat matchFrame).zip
              (frameGtCls sampleCfg sampleIou oneMatcher sampleAnchors
                matchFrame)).filter
            (fun rv => decide (rv.2 ≠ -1))).map
          (fun rv => rowFocal sampleFocal sampleCfg.numClasses
            rv.1 rv.2)).sum)
    ∧ ((frameForeground sampleCfg sampleIou oneMatcher sampleAnchors
          matchFrame).getD 0 false = true ↔
        (0 ≤ (frameGtCls sampleCfg sampleIou oneMatcher sampleAnchors
            matchFrame).getD 0 0
          ∧ (frameGtCls sampleCfg sampleIou oneMatcher sampleAnchors
              matchFrame).getD 0 0 < (sampleCfg.numClasses : ℤ)))) :=
  ⟨by decide, by decide, by decide,
    c5_classification_target_structure sampleCfg sampleIou sampleFocal
      oneMatcher sampleAnchors matchFrame 0 0
      (by decide) (by decide) (by decide)⟩

end YOWOF
